import Mathlib

/-!
Shallow embedding of the scene-assembly and annotation subsystem of the
3D microfossil viewer (src/js/labelUtils.js, src/js/controls.js, the
main module src/unnamed/part_000, and the per-specimen factory modules).

Conventions of the embedding:
* HTML elements, three.js objects and component records are identified by
  natural-number ids; mutable JS object fields live in stores inside a
  single ViewerState record (element store as an association list, the
  component / visibility / position stores as functions from ids).
* Positions are rational vectors.  The source compares the Euclidean
  distance with the threshold 10; the embedding compares the squared
  distance with 100, which is equivalent for non-negative reals and keeps
  every definition executable over the rationals.
* The DOM is modeled by a parent pointer per element plus a static set
  of DOM node ids that lie inside the label container
  (window.labelContainer, set once during init in part_000).
-/

/-- Rational 3D vector, standing in for THREE.Vector3. -/
structure Vec3 where
  x : Rat
  y : Rat
  z : Rat
deriving DecidableEq, Repr

/-- Squared Euclidean distance.  The source computes
labelPosition.distanceTo(cameraPosition) and compares it with 10; we
compare the square with 100, which is equivalent since distances are
non-negative. -/
def dist2 (a b : Vec3) : Rat :=
  (a.x - b.x) * (a.x - b.x) + (a.y - b.y) * (a.y - b.y) + (a.z - b.z) * (a.z - b.z)

/-- Mutable state of one HTML element: its class name, text, the two
style properties the subsystem writes (display, opacity), and its DOM
parent (none when detached). -/
structure ElemSt where
  cls : String
  txt : String
  display : String
  opacity : String
  parent : Option Nat
deriving DecidableEq, Repr

/-- Entry of the global window.labels array, as built by addLabel in
labelUtils.js: the CSS2DObject, its HTML element and the owning
component (a back-reference). -/
structure LabelInfo where
  object : Option Nat
  element : Nat
  component : Option Nat
deriving DecidableEq, Repr

/-- Entry of a component record own labels array (addLabel pushes
the pair of CSS2DObject and element, without the component). -/
structure CompLabel where
  object : Nat
  element : Nat
deriving DecidableEq, Repr

/-- Component record as stored in group.userData.components by the
factories: the stable name, the display name, exactly one of a mesh or
a group reference to the owned 3D subtree, the visibility flag, and the
lazily created labels array. -/
structure Component where
  name : String
  displayName : String
  mesh : Option Nat
  group : Option Nat
  visible : Bool
  labels : Option (List CompLabel)
deriving DecidableEq, Repr

/-- A node of the three.js scene graph: either a CSS2DObject (wrapping
an HTML element) or an ordinary Object3D / Group with children. -/
inductive SceneNode where
  | css2d (objId : Nat) (elemId : Nat)
  | group (nid : Nat) (children : List SceneNode)
deriving Repr

/-- Global state of the viewer page: the scene children, the global
window.labels array (none models the array being undefined), the element
store, the component store, the per-object visible flags and positions,
the static set of DOM nodes inside window.labelContainer, and the page
level variables of part_000 (currentModel, crossSectionEnabled, the
component-toggle panel, fossilType).  fresh is the id allocator. -/
structure ViewerState where
  sceneChildren : List SceneNode
  labels : Option (List LabelInfo)
  elems : List (Nat × ElemSt)
  comps : Nat → Component
  nodeVisible : Nat → Bool
  objPos : Nat → Vec3
  containerNodes : Nat → Bool
  currentModel : Option SceneNode
  crossSection : Bool
  toggles : List Nat
  fossilType : String
  fresh : Nat

/-- Update the element with the given id (all association-list entries
carrying that id) by a field transformer. -/
def mapAt (es : List (Nat × ElemSt)) (i : Nat) (f : ElemSt → ElemSt) :
    List (Nat × ElemSt) :=
  es.map fun p => if p.1 = i then (p.1, f p.2) else p

/-- Look up an element by id. -/
def findElem (es : List (Nat × ElemSt)) (i : Nat) : Option ElemSt :=
  (es.find? fun p => p.1 == i).map Prod.snd

/-- Style display of an element. -/
def getDisplay (es : List (Nat × ElemSt)) (i : Nat) : Option String :=
  (findElem es i).map ElemSt.display

/-- Style opacity of an element. -/
def getOpacity (es : List (Nat × ElemSt)) (i : Nat) : Option String :=
  (findElem es i).map ElemSt.opacity

mutual
/-- Collect the ids of every CSS2DObject in a scene-graph subtree, in
traversal order; this is the scene.traverse instanceof search at the top
of removeAllLabels (labelUtils.js lines 67 to 72). -/
def collectCss : SceneNode → List Nat
  | .css2d o _ => [o]
  | .group _ cs => collectCssList cs
/-- Collect the CSS2DObject ids of a list of subtrees. -/
def collectCssList : List SceneNode → List Nat
  | [] => []
  | n :: ns => collectCss n ++ collectCssList ns
end

/-- The scene.remove(object) call of removeAllLabels: Object3D.remove
only detaches direct children, so only top-level occurrences of the
CSS2DObject are dropped.  Objects are compared by identity, which the
embedding renders as the CSS2DObject id. -/
def removeObj (children : List SceneNode) (oid : Nat) : List SceneNode :=
  children.filter fun n =>
    match n with
    | .css2d o _ => o != oid
    | .group _ _ => true

/-- Phase one of removeAllLabels: remove every collected CSS2DObject
from the scene children. -/
def sweepScene (cs : List SceneNode) : List SceneNode :=
  (collectCssList cs).foldl removeObj cs

/-- Detach the element of one window.labels entry from its DOM parent,
guarded exactly like the source: label.element.parentNode must be
present before parentNode.removeChild runs.  Elements outside the store
are left alone. -/
def detachLabelElem (es : List (Nat × ElemSt)) (i : Nat) : List (Nat × ElemSt) :=
  match findElem es i with
  | some e => if e.parent.isSome then mapAt es i (fun e => { e with parent := none }) else es
  | none => es

/-- Phase two element loop of removeAllLabels: walk window.labels and
detach each recorded element. -/
def detachListed (es : List (Nat × ElemSt)) (ls : List LabelInfo) : List (Nat × ElemSt) :=
  ls.foldl (fun es l => detachLabelElem es l.element) es

/-- Element ids matched by the querySelectorAll search for orphaned
fossil-label elements below window.labelContainer. -/
def orphanIds (es : List (Nat × ElemSt)) (container : Nat → Bool) : List Nat :=
  (es.filter fun p =>
    p.2.cls == "fossil-label" &&
      (match p.2.parent with
       | some d => container d
       | none => false)).map Prod.fst

/-- Detach every element in a list of ids from its DOM parent. -/
def detachAll (es : List (Nat × ElemSt)) (ids : List Nat) : List (Nat × ElemSt) :=
  ids.foldl (fun es i => mapAt es i (fun e => { e with parent := none })) es

/-- The removeAllLabels teardown of labelUtils.js lines 64 to 100:
first find and remove all CSS2DObjects from the scene, then detach the
elements recorded in window.labels and empty that array (when it is
defined), then detach any fossil-label element still attached below the
label container. -/
def removeAllLabels (s : ViewerState) : ViewerState :=
  let s1 : ViewerState := { s with sceneChildren := sweepScene s.sceneChildren }
  let s2 : ViewerState :=
    match s1.labels with
    | some ls => { s1 with elems := detachListed s1.elems ls, labels := some [] }
    | none => s1
  { s2 with elems := detachAll s2.elems (orphanIds s2.elems s2.containerNodes) }

/-- The opacity value written for a label whose object sits at squared
distance dist2 from the camera: 0.3 when the distance exceeds 10
(squared: 100), full opacity otherwise. -/
def opacityFor (pos : Nat → Vec3) (cam : Vec3) (o : Nat) : String :=
  if dist2 (pos o) cam > 100 then "0.3" else "1"

/-- One iteration of the updateLabels forEach: entries without an object
are skipped, otherwise the overlay opacity is written from the distance
rule. -/
def updLabelStep (pos : Nat → Vec3) (cam : Vec3) (es : List (Nat × ElemSt))
    (l : LabelInfo) : List (Nat × ElemSt) :=
  match l.object with
  | none => es
  | some o => mapAt es l.element (fun e => { e with opacity := opacityFor pos cam o })

/-- The per-frame updateLabels of labelUtils.js lines 103 to 123: for
each entry with an object, resolve the world position of the object,
compare the distance to the camera world position with 10 (here: the
squared distance with 100) and write the overlay opacity, 0.3 when the
distance exceeds the threshold and 1 otherwise. -/
def updateLabels (ls : List LabelInfo) (camPos : Vec3) (s : ViewerState) : ViewerState :=
  { s with elems := ls.foldl (updLabelStep s.objPos camPos) s.elems }

/-- Display writes of toggleComponentVisibility for the bound labels. -/
def setDisplays (es : List (Nat × ElemSt)) (labs : List CompLabel) (d : String) :
    List (Nat × ElemSt) :=
  labs.foldl (fun es l => mapAt es l.element (fun e => { e with display := d })) es

/-- The toggleComponentVisibility of controls.js lines 45 to 60: when
the component has a mesh, set the mesh visible flag and the stored flag;
otherwise, when it has a group, set the group visible flag and the
stored flag; then, when a labels array exists, set every bound overlay
element display to block or none. -/
def toggleComponentVisibility (s : ViewerState) (cid : Nat) (isVisible : Bool) : ViewerState :=
  let c := s.comps cid
  let s1 : ViewerState :=
    match c.mesh with
    | some m =>
        { s with nodeVisible := Function.update s.nodeVisible m isVisible,
                 comps := Function.update s.comps cid { c with visible := isVisible } }
    | none =>
        match c.group with
        | some g =>
            { s with nodeVisible := Function.update s.nodeVisible g isVisible,
                     comps := Function.update s.comps cid { c with visible := isVisible } }
        | none => s
  match c.labels with
  | some labs =>
      { s1 with elems := setDisplays s1.elems labs (if isVisible then "block" else "none") }
  | none => s1

/-- Anchor and text of one addLabel call inside a factory. -/
structure LabelSpec where
  text : String
  pos : Vec3
deriving DecidableEq, Repr

/-- One component a factory registers: the record fields pushed into
group.userData.components plus the addLabel call bound to it.  isMesh
tells whether the subtree is stored under the mesh key or the group
key of the record. -/
structure CompSpec where
  name : String
  displayName : String
  isMesh : Bool
  label : Option LabelSpec
deriving DecidableEq, Repr

/-- The registration idiom of every factory, e.g. createCarapace
(labelUtils.js lines 166 to 174) and createSiliceousSkeleton
(part_001 lines 102 to 110): an unconditional
group.userData.components.push(component).  There is no name check and
no failure path in the source. -/
def registerComponent (comps : List Component) (c : Component) : List Component :=
  comps ++ [c]

/-- The addLabel of labelUtils.js lines 32 to 61, called with the model
group as the scene argument: create the fossil-label element and the
CSS2DObject at the anchor position, add the CSS2DObject to the group
children, push the label info onto window.labels when that global is an
array, and push onto the owning component labels array, creating it
when absent. -/
def addLabel (s : ViewerState) (groupChildren : List SceneNode) (text : String)
    (pos : Vec3) (cid : Nat) : List SceneNode × ViewerState :=
  let eid := s.fresh
  let oid := s.fresh + 1
  let e : ElemSt := { cls := "fossil-label", txt := text, display := "", opacity := "", parent := none }
  let s1 : ViewerState :=
    { s with elems := s.elems ++ [(eid, e)],
             objPos := Function.update s.objPos oid pos,
             fresh := s.fresh + 2 }
  let children := groupChildren ++ [SceneNode.css2d oid eid]
  let s2 : ViewerState :=
    { s1 with labels := s1.labels.map (fun l => l ++ [⟨some oid, eid, some cid⟩]) }
  let c := s2.comps cid
  let c1 : Component := { c with labels := some ((c.labels.getD []) ++ [⟨oid, eid⟩]) }
  let s3 : ViewerState := { s2 with comps := Function.update s2.comps cid c1 }
  (children, s3)

/-- One createX step of a factory: build the subtree (a fresh scene
node, visible by default), push the component record, and run the
bound addLabel call when the step has one.  The accumulator carries the
model group children built so far, the registered component ids, and
the state. -/
def stepComp (acc : List SceneNode × List Nat × ViewerState) (cs : CompSpec) :
    List SceneNode × List Nat × ViewerState :=
  let children := acc.1
  let cids := acc.2.1
  let s := acc.2.2
  let subId := s.fresh
  let cid := s.fresh + 1
  let c : Component :=
    { name := cs.name, displayName := cs.displayName,
      mesh := if cs.isMesh then some subId else none,
      group := if cs.isMesh then none else some subId,
      visible := true, labels := none }
  let s1 : ViewerState :=
    { s with comps := Function.update s.comps cid c,
             nodeVisible := Function.update s.nodeVisible subId true,
             fresh := s.fresh + 2 }
  let children1 := children ++ [SceneNode.group subId []]
  match cs.label with
  | none => (children1, cids ++ [cid], s1)
  | some lb =>
      let r := addLabel s1 children1 lb.text lb.pos cid
      (r.1, cids ++ [cid], r.2)

/-- A createXModel factory (for example createOstracodModel): create
the root group, run every createX step, and return the root, the
registered component ids and the new state.  The diatom factory
registers its four components first and then issues the four addLabel
calls, which produces the same component order and the same
window.labels order as the uniform per-component processing used
here. -/
def runFactory (spec : List CompSpec) (s : ViewerState) :
    SceneNode × List Nat × ViewerState :=
  let mid := s.fresh
  let s0 : ViewerState :=
    { s with fresh := s.fresh + 1, nodeVisible := Function.update s.nodeVisible mid true }
  let r := spec.foldl stepComp ([], [], s0)
  (SceneNode.group mid r.1, r.2.1, r.2.2)

/-- Component list of fusuline.js. -/
def fusulineSpec : List CompSpec :=
  [⟨"shell", "Outer Shell", true, some ⟨"Outer Shell (Test)", ⟨1.7, 0, 0⟩⟩⟩,
   ⟨"septa", "Septa (Chamber Walls)", false, some ⟨"Septa", ⟨0.5, 0.2, 0.5⟩⟩⟩,
   ⟨"aperture", "Aperture (Opening)", true, some ⟨"Aperture", ⟨1.7, 0.3, 0⟩⟩⟩,
   ⟨"chambers", "Internal Chambers", false, some ⟨"Chambers", ⟨-0.5, 0.5, 0.5⟩⟩⟩,
   ⟨"chomata", "Chomata", false, some ⟨"Chomata", ⟨-0.4, 0.3, 0.3⟩⟩⟩,
   ⟨"tunnel", "Tunnel", false, some ⟨"Tunnel", ⟨0, 0.2, 0⟩⟩⟩,
   ⟨"cuniculus", "Cuniculi", false, some ⟨"Cuniculi", ⟨-0.6, 0.4, 0.3⟩⟩⟩,
   ⟨"septalPores", "Septal Pores", false, some ⟨"Septal Pores", ⟨0.4, 0, 0.6⟩⟩⟩]

/-- Component list of the radiolarian module (part_001, cited copy). -/
def radiolarianSpec : List CompSpec :=
  [⟨"skeleton", "Siliceous Skeleton", false, some ⟨"Siliceous Skeleton", ⟨1.0, 0.5, 0⟩⟩⟩,
   ⟨"capsule", "Central Capsule", false, some ⟨"Central Capsule", ⟨0.2, -0.6, 0.2⟩⟩⟩,
   ⟨"spines", "Radial Spines", false, some ⟨"Radial Spines", ⟨0, 1.8, 0⟩⟩⟩,
   ⟨"axopods", "Axopods", false, some ⟨"Axopods", ⟨1.0, -0.3, 0.8⟩⟩⟩]

/-- Component list of the foraminifera module (part_002). -/
def foraminiferaSpec : List CompSpec :=
  [⟨"test", "Test (Shell)", false, some ⟨"Test (Shell)", ⟨0, 1, 0⟩⟩⟩,
   ⟨"chambers", "Chambers", false, some ⟨"Chambers", ⟨-0.5, 0, 0.5⟩⟩⟩,
   ⟨"aperture", "Aperture (Opening)", true, some ⟨"Aperture", ⟨1.1, 0.3, 0⟩⟩⟩,
   ⟨"pseudopodia", "Pseudopodia", false, some ⟨"Pseudopodia", ⟨1.6, 0.5, 0.3⟩⟩⟩,
   ⟨"symbiotic_algae", "Symbiotic Algae", false, some ⟨"Symbiotic Algae", ⟨0.5, 0.2, 0.5⟩⟩⟩,
   ⟨"pore_system", "Pore System", false, some ⟨"Pore System", ⟨0, -0.8, 0.5⟩⟩⟩]

/-- Component list of diatom.js. -/
def diatomSpec : List CompSpec :=
  [⟨"frustule", "Frustule (Shell)", true, some ⟨"Frustule", ⟨0, 0.4, 0.9⟩⟩⟩,
   ⟨"ornaments", "Surface Ornaments", false, some ⟨"Surface Ornaments", ⟨0.9, 0.2, 0⟩⟩⟩,
   ⟨"chloroplasts", "Chloroplasts", false, some ⟨"Chloroplasts", ⟨-0.9, 0, 0.2⟩⟩⟩,
   ⟨"raphe", "Raphe System", false, some ⟨"Raphe", ⟨0, 0.3, -0.9⟩⟩⟩]

/-- Component list of conodont.js. -/
def conodontSpec : List CompSpec :=
  [⟨"body", "Element Body", true, some ⟨"Element Body", ⟨0, 0.3, 0.3⟩⟩⟩,
   ⟨"denticles", "Denticles", false, some ⟨"Denticles", ⟨0.4, 0.4, 0.3⟩⟩⟩,
   ⟨"cusp", "Main Cusp", true, some ⟨"Main Cusp", ⟨-0.3, 0.6, 0.3⟩⟩⟩,
   ⟨"whiteMatter", "White Matter", true, some ⟨"White Matter", ⟨-0.3, 0.45, 0.5⟩⟩⟩,
   ⟨"basalCavity", "Basal Cavity", true, some ⟨"Basal Cavity", ⟨0, -0.2, 0.3⟩⟩⟩,
   ⟨"growthLines", "Growth Lines", false, some ⟨"Growth Lines", ⟨0.2, 0.2, 0.5⟩⟩⟩]

/-- Component list of the ostracod module (concatenated after
labelUtils.js in src/js/labelUtils.js). -/
def ostracodSpec : List CompSpec :=
  [⟨"carapace", "Carapace (Shell)", false, some ⟨"Carapace", ⟨0, 0.6, 0.6⟩⟩⟩,
   ⟨"hinge", "Hinge Line", true, some ⟨"Hinge Line", ⟨0, 0.5, 0.3⟩⟩⟩,
   ⟨"appendages", "Appendages", false, some ⟨"Appendages", ⟨0.2, -0.7, 0.5⟩⟩⟩,
   ⟨"body", "Internal Body", true, some ⟨"Internal Body", ⟨0, 0, 0.7⟩⟩⟩,
   ⟨"muscleScars", "Muscle Scars", false, some ⟨"Muscle Scars", ⟨-0.2, 0.1, 0.7⟩⟩⟩,
   ⟨"eyeSpots", "Eye Spots", false, some ⟨"Eye Spots", ⟨0.6, 0.5, 0⟩⟩⟩]

/-- Component list of acritarch.js. -/
def acritarchSpec : List CompSpec :=
  [⟨"vesicle", "Vesicle (Central Body)", true, some ⟨"Vesicle", ⟨0, 0.8, 0⟩⟩⟩,
   ⟨"processes", "Processes (Spines)", false, some ⟨"Processes", ⟨1.1, 0, 0.3⟩⟩⟩,
   ⟨"operculum", "Operculum (Opening)", true, some ⟨"Operculum", ⟨0, 0.3, 1.0⟩⟩⟩,
   ⟨"interior", "Interior Structure", true, some ⟨"Interior", ⟨0, -0.3, 0.5⟩⟩⟩,
   ⟨"wallUltrastructure", "Wall Ultrastructure", false, some ⟨"Wall Ultrastructure", ⟨1.2, 0.3, 0⟩⟩⟩,
   ⟨"surfaceOrnamentation", "Surface Ornamentation", false, some ⟨"Surface Ornamentation", ⟨-0.5, 0.9, 0.3⟩⟩⟩]

/-- The switch of loadFossil (part_000 lines 133 to 169): the supported
specimen keys and their factories; every other key falls through with no
case. -/
def fossilSpec (ty : String) : Option (List CompSpec) :=
  if ty = "fusuline" then some fusulineSpec
  else if ty = "radiolarian" then some radiolarianSpec
  else if ty = "foraminifera" then some foraminiferaSpec
  else if ty = "diatom" then some diatomSpec
  else if ty = "conodont" then some conodontSpec
  else if ty = "ostracod" then some ostracodSpec
  else if ty = "acritarch" then some acritarchSpec
  else none

/-- Root id of a scene node, used for the identity comparison of
scene.remove(currentModel). -/
def rootId : SceneNode → Nat
  | .css2d o _ => o
  | .group g _ => g

/-- Teardown prefix of loadFossil (part_000 lines 116 to 129): remove
the current model from the scene, run removeAllLabels, reset the cross
section and store the requested type; this happens before the switch
dispatches on the type. -/
def loadPrefix (s : ViewerState) (ty : String) : ViewerState :=
  let s1 : ViewerState :=
    { s with sceneChildren :=
        match s.currentModel with
        | some m => s.sceneChildren.filter (fun n => rootId n != rootId m)
        | none => s.sceneChildren }
  { removeAllLabels s1 with crossSection := false, fossilType := ty }

/-- The loadFossil of part_000 lines 115 to 176: the teardown prefix,
then the dispatch on the type.  A known type runs its factory, adds the
new model to the scene and repopulates the toggle panel; an unknown
type leaves the switch without a case, so the old model object (still
in the currentModel variable) is re-added to the scene while the toggle
panel is rebuilt from the empty components list.  The updateFossilInfo
call on the info string is modeled separately below. -/
def loadFossil (s : ViewerState) (ty : String) : ViewerState :=
  let s3 := loadPrefix s ty
  match fossilSpec ty with
  | some spec =>
      let r := runFactory spec s3
      { r.2.2 with sceneChildren := r.2.2.sceneChildren ++ [r.1],
                   currentModel := some r.1,
                   toggles := r.2.1 }
  | none =>
      { s3 with sceneChildren := s3.sceneChildren ++ s3.currentModel.toList,
                toggles := [] }

/-- Page state at startup (part_000 lines 15 to 23): empty scene,
window.labels initialized to an empty array, no model yet, fossilType
preset to fusuline. -/
def initSt : ViewerState where
  sceneChildren := []
  labels := some []
  elems := []
  comps := fun _ => { name := "", displayName := "", mesh := none, group := none,
                      visible := true, labels := none }
  nodeVisible := fun _ => true
  objPos := fun _ => ⟨0, 0, 0⟩
  containerNodes := fun _ => false
  currentModel := none
  crossSection := false
  toggles := []
  fossilType := "fusuline"
  fresh := 0

/-- Whitespace test for the JS String.prototype.trim model. -/
def isWsChar (c : Char) : Bool :=
  c = ' ' || c = '\t' || c = '\n' || c = '\r'

/-- Drop leading whitespace characters. -/
def dropWs : List Char → List Char
  | [] => []
  | c :: cs => if isWsChar c then dropWs cs else c :: cs

/-- The JS String.prototype.trim: strip whitespace from both ends. -/
def jsTrim (s : String) : String :=
  ⟨((dropWs s.data).reverse |> dropWs).reverse⟩

/-- Bool test that pat occurs at the head of a character list. -/
def leadsWith : List Char → List Char → Bool
  | [], _ => true
  | _ :: _, [] => false
  | p :: ps, c :: cs => p == c && leadsWith ps cs

/-- Bool test that pat occurs somewhere in a character list. -/
def containsSeq (pat : List Char) : List Char → Bool
  | [] => pat.isEmpty
  | c :: cs => leadsWith pat (c :: cs) || containsSeq pat cs

/-- The JS String.prototype.includes substring test. -/
def strIncludes (s pat : String) : Bool :=
  containsSeq pat.data s.data

/-- One block-level piece of a parsed description document, the level at
which createTabbedContent (part_000 lines 183 to 283) queries the DOM:
the h3 title, h4 headings (searched by textContent), paragraphs (which
may carry the citation em element), and lists.  Outer HTML of h4
headings is reconstructed from the heading text; other blocks carry
their outer HTML. -/
inductive DocBlock where
  | h3 (html : String)
  | h4 (txt : String)
  | para (em : Option String) (html : String)
  | ul (html : String)
deriving DecidableEq, Repr

/-- Outer HTML of an h4 heading. -/
def h4Outer (t : String) : String := "<h4>" ++ t ++ "</h4>"

/-- Outer HTML of a block. -/
def blockOuter : DocBlock → String
  | .h3 h => h
  | .h4 t => h4Outer t
  | .para _ h => h
  | .ul h => h

/-- The doc.querySelector h3 lookup: outer HTML of the first h3. -/
def firstH3 : List DocBlock → Option String
  | [] => none
  | .h3 h :: _ => some h
  | _ :: bs => firstH3 bs

/-- The doc.querySelector h3 + p lookup: the first paragraph directly
following an h3 sibling. -/
def h3AdjPara : List DocBlock → Option String
  | .h3 _ :: .para _ h :: _ => some h
  | _ :: bs => h3AdjPara bs
  | [] => none

/-- Sibling content after a recognized h4 heading, up to the next h4;
this is the nextElementSibling walk of createTabbedContent. -/
def collectAfterH4 : List DocBlock → String
  | [] => ""
  | .h4 _ :: _ => ""
  | b :: bs => blockOuter b ++ collectAfterH4 bs

/-- Find the first h4 whose text contains the key, and build the section
content: the heading outer HTML followed by the sibling content up to
the next h4. -/
def findSection (key : String) : List DocBlock → Option String
  | [] => none
  | .h4 t :: bs =>
      if strIncludes t key then some (h4Outer t ++ collectAfterH4 bs)
      else findSection key bs
  | _ :: bs => findSection key bs

/-- The doc.querySelector em lookup: outer HTML of the first citation
em element. -/
def firstEm : List DocBlock → Option String
  | [] => none
  | .para (some e) _ :: _ => some e
  | _ :: bs => firstEm bs

/-- A section of the tabbed reading view. -/
structure TabSection where
  id : String
  title : String
  content : String
deriving DecidableEq, Repr

/-- Optional singleton section. -/
def withSec (id title : String) (c : Option String) : List TabSection :=
  match c with
  | some h => [⟨id, title, h⟩]
  | none => []

/-- The four section pushes of createTabbedContent, in source order:
Overview from the paragraph after the title, then the Key Features,
Geological Significance and Taxonomy headings found by substring
match. -/
def baseSections (doc : List DocBlock) : List TabSection :=
  withSec "overview" "Overview" (h3AdjPara doc)
    ++ withSec "features" "Features" (findSection "Key Features" doc)
    ++ withSec "significance" "Significance" (findSection "Geological Significance" doc)
    ++ withSec "taxonomy" "Taxonomy" (findSection "Taxonomy" doc)

/-- The citation handling of createTabbedContent (part_000 lines 256 to
268): when an em exists and at least one section was built, append its
outer HTML to the last section when that section is the Taxonomy one,
and otherwise push a standalone Source section. -/
def appendEm (secs : List TabSection) (em : Option String) : List TabSection :=
  match em with
  | none => secs
  | some e =>
      match secs.getLast? with
      | none => secs
      | some last =>
          if last.id = "taxonomy" then
            secs.dropLast ++ [{ last with content := last.content ++ e }]
          else
            secs ++ [⟨"source", "Source", e⟩]

/-- Section list produced by createTabbedContent for a parsed
document. -/
def sectionsOf (doc : List DocBlock) : List TabSection :=
  appendEm (baseSections doc) (firstEm doc)

/-- One tab button, active for the first section. -/
def tabDiv (i : Nat) (sec : TabSection) : String :=
  "<div class=\"info-tab " ++ (if i = 0 then "active" else "")
    ++ "\" data-tab=\"" ++ sec.id ++ "\">" ++ sec.title ++ "</div>"

/-- One tab content panel, active for the first section. -/
def contentDiv (i : Nat) (sec : TabSection) : String :=
  "<div class=\"info-content " ++ (if i = 0 then "active" else "")
    ++ "\" id=\"tab-" ++ sec.id ++ "\">" ++ sec.content ++ "</div>"

/-- Full rendered output of createTabbedContent: the title, the tab bar,
and the content panels. -/
def createTabbedContent (doc : List DocBlock) : String :=
  let title := (firstH3 doc).getD ""
  let secs := sectionsOf doc
  title ++ "<div class=\"info-tabs\">"
    ++ String.join (secs.enum.map fun p => tabDiv p.1 p.2)
    ++ "</div>"
    ++ String.join (secs.enum.map fun p => contentDiv p.1 p.2)

/-- The guard of updateFossilInfo (part_000 lines 285 to 289): a
document whose trimmed length is below 50 or which lacks the h3 title
marker is rendered verbatim; otherwise the tab-building branch runs on
the parsed document, abstracted here as the render parameter since the
source parses the HTML string with DOMParser. -/
def updateFossilInfo (render : String → String) (info : String) : String :=
  if (jsTrim info).length < 50 ∨ strIncludes info "<h3>" = false then info
  else render info

/-- Number of ids one factory step allocates: subtree and component
record, plus element and CSS2DObject when the step adds a label. -/
def labelCost (cs : CompSpec) : Nat :=
  if cs.label.isSome then 4 else 2

/-- Total number of ids a factory run allocates for its steps. -/
def specCost : List CompSpec → Nat
  | [] => 0
  | cs :: rest => labelCost cs + specCost rest

/-- Predicted window.labels entries a factory pushes when its step fold
starts with allocator value b: per labeled step, the element id b + 2,
the object id b + 3 and the component id b + 1. -/
def newInfos : List CompSpec → Nat → List LabelInfo
  | [], _ => []
  | cs :: rest, b =>
      match cs.label with
      | none => newInfos rest (b + 2)
      | some _ => ⟨some (b + 3), b + 2, some (b + 1)⟩ :: newInfos rest (b + 4)

/-- Predicted component ids a factory registers when its step fold
starts with allocator value b. -/
def newCids : List CompSpec → Nat → List Nat
  | [], _ => []
  | cs :: rest, b => (b + 1) :: newCids rest (b + labelCost cs)

/-- Concrete component used by the C6 and C7 visibility witnesses: a
group subtree with one bound label, mirroring the carapace component of
the ostracod module. -/
def sampleComp : Component :=
  { name := "carapace", displayName := "Carapace (Shell)",
    mesh := none, group := some 5, visible := true, labels := some [⟨1, 0⟩] }

/-- Concrete state for the visibility witnesses: sampleComp everywhere
and one attached label element shown as block. -/
def sampleToggleSt : ViewerState :=
  { initSt with comps := fun _ => sampleComp,
                elems := [(0, ⟨"fossil-label", "Carapace", "block", "", none⟩)] }

/-- Component with the carapace name used by the duplicate-registration
counterexample of C3. -/
def dupComp : Component :=
  { name := "carapace", displayName := "Carapace (Shell)",
    mesh := none, group := some 0, visible := true, labels := none }

/-- Parsed sample description document used by the segmentation
witnesses: title, overview paragraph, Key Features with a list,
Taxonomy, and a trailing citation. -/
def sampleDoc : List DocBlock :=
  [DocBlock.h3 "<h3>Ostracod</h3>",
   DocBlock.para none "<p>Ostracods are small bivalved crustaceans.</p>",
   DocBlock.h4 "Key Features:",
   DocBlock.ul "<ul><li>Carapace</li><li>Appendages</li><li>Size</li></ul>",
   DocBlock.h4 "Taxonomy & Classification:",
   DocBlock.para none "<p>Domain: Eukaryota</p>",
   DocBlock.para (some "<em>Data sourced from the World Ostracoda Database</em>")
     "<p><em>Data sourced from the World Ostracoda Database</em></p>"]

/-- Parsed sample document without a Taxonomy heading, used by the C9
witness for the standalone Source branch. -/
def sampleDocNoTax : List DocBlock :=
  [DocBlock.h3 "<h3>Diatom</h3>",
   DocBlock.para none "<p>Diatoms are photosynthetic microalgae.</p>",
   DocBlock.para (some "<em>Data sourced from DiatomBase</em>")
     "<p><em>Data sourced from DiatomBase</em></p>"]

/-! Store lemmas. -/

theorem findElem_cons (p : Nat × ElemSt) (es : List (Nat × ElemSt)) (i : Nat) :
    findElem (p :: es) i = if p.1 = i then some p.2 else findElem es i := by
  by_cases h : p.1 = i
  · simp [findElem, List.find?_cons_of_pos, h]
  · simp [findElem, List.find?_cons_of_neg, h]

theorem mapAt_cons (p : Nat × ElemSt) (es : List (Nat × ElemSt)) (j : Nat)
    (f : ElemSt → ElemSt) :
    mapAt (p :: es) j f = (if p.1 = j then (p.1, f p.2) else p) :: mapAt es j f := rfl

theorem findElem_mapAt_self (es : List (Nat × ElemSt)) (j : Nat) (f : ElemSt → ElemSt) :
    findElem (mapAt es j f) j = (findElem es j).map f := by
  induction es with
  | nil => rfl
  | cons p es ih =>
    by_cases h : p.1 = j
    · simp [mapAt_cons, findElem_cons, h]
    · simp [mapAt_cons, findElem_cons, h, ih]

theorem findElem_mapAt_ne (es : List (Nat × ElemSt)) (j : Nat) (f : ElemSt → ElemSt)
    (i : Nat) (hij : i ≠ j) :
    findElem (mapAt es j f) i = findElem es i := by
  have hji : j ≠ i := Ne.symm hij
  induction es with
  | nil => rfl
  | cons p es ih =>
    by_cases h : p.1 = j
    · have hpi : p.1 ≠ i := by omega
      simp [mapAt_cons, findElem_cons, h, hpi, hji, ih]
    · by_cases hpi : p.1 = i
      · simp [mapAt_cons, findElem_cons, h, hpi, hij, hji]
      · simp [mapAt_cons, findElem_cons, h, hpi, ih]

theorem findElem_mapAt_isSome (es : List (Nat × ElemSt)) (j : Nat) (f : ElemSt → ElemSt)
    (i : Nat) :
    (findElem (mapAt es j f) i).isSome = (findElem es i).isSome := by
  by_cases h : i = j
  · subst h; rw [findElem_mapAt_self]; cases findElem es i <;> rfl
  · rw [findElem_mapAt_ne _ _ _ _ h]

/-! Field behavior of removeAllLabels. -/

theorem removeAllLabels_comps (s : ViewerState) :
    (removeAllLabels s).comps = s.comps := by
  cases h : s.labels <;> simp [removeAllLabels, h]

theorem removeAllLabels_fresh (s : ViewerState) :
    (removeAllLabels s).fresh = s.fresh := by
  cases h : s.labels <;> simp [removeAllLabels, h]

theorem removeAllLabels_labels_some (s : ViewerState) (l : List LabelInfo)
    (h : s.labels = some l) : (removeAllLabels s).labels = some [] := by
  simp [removeAllLabels, h]

theorem removeAllLabels_labels_none (s : ViewerState)
    (h : s.labels = none) : (removeAllLabels s).labels = none := by
  simp [removeAllLabels, h]

theorem removeAllLabels_sceneChildren (s : ViewerState) :
    (removeAllLabels s).sceneChildren = sweepScene s.sceneChildren := by
  cases h : s.labels <;> simp [removeAllLabels, h]

theorem removeAllLabels_nodeVisible (s : ViewerState) :
    (removeAllLabels s).nodeVisible = s.nodeVisible := by
  cases h : s.labels <;> simp [removeAllLabels, h]

theorem removeAllLabels_objPos (s : ViewerState) :
    (removeAllLabels s).objPos = s.objPos := by
  cases h : s.labels <;> simp [removeAllLabels, h]

theorem removeAllLabels_containerNodes (s : ViewerState) :
    (removeAllLabels s).containerNodes = s.containerNodes := by
  cases h : s.labels <;> simp [removeAllLabels, h]

theorem removeAllLabels_currentModel (s : ViewerState) :
    (removeAllLabels s).currentModel = s.currentModel := by
  cases h : s.labels <;> simp [removeAllLabels, h]

theorem removeAllLabels_toggles (s : ViewerState) :
    (removeAllLabels s).toggles = s.toggles := by
  cases h : s.labels <;> simp [removeAllLabels, h]

theorem removeAllLabels_crossSection (s : ViewerState) :
    (removeAllLabels s).crossSection = s.crossSection := by
  cases h : s.labels <;> simp [removeAllLabels, h]

theorem removeAllLabels_fossilType (s : ViewerState) :
    (removeAllLabels s).fossilType = s.fossilType := by
  cases h : s.labels <;> simp [removeAllLabels, h]

/-- C10: the teardown removeAllLabels removes scene objects, detaches
overlay elements and empties the global label array, but never touches
a component record: every component keeps its full labels array of (now
detached) handles and its visible flag. -/
theorem claim_C10_frame (s : ViewerState) :
    (removeAllLabels s).comps = s.comps ∧
    (∀ cid, ((removeAllLabels s).comps cid).labels = (s.comps cid).labels) ∧
    (∀ cid, ((removeAllLabels s).comps cid).visible = (s.comps cid).visible) :=
  ⟨removeAllLabels_comps s,
   fun cid => by rw [removeAllLabels_comps],
   fun cid => by rw [removeAllLabels_comps]⟩

/-- C8: a description document whose trimmed length is below 50 or which
lacks the h3 title marker skips segmentation and is rendered verbatim,
so no tab bar and no tab content markup is produced. -/
theorem claim_C8_verbatim (render : String → String) (info : String)
    (h : (jsTrim info).length < 50 ∨ strIncludes info "<h3>" = false) :
    updateFossilInfo render info = info := by
  unfold updateFossilInfo
  rw [if_pos h]

/-- Witness for C8 at the placeholder message of the info panel. -/
theorem claim_C8_verbatim_witness :
    ((jsTrim "Select a fossil to view information").length < 50 ∨
      strIncludes "Select a fossil to view information" "<h3>" = false) ∧
    updateFossilInfo id "Select a fossil to view information"
      = "Select a fossil to view information" :=
  ⟨Or.inl (by decide), claim_C8_verbatim id _ (Or.inl (by decide))⟩

/-! Per-frame opacity update. -/

theorem updFold_notmem (pos : Nat → Vec3) (cam : Vec3) (ls : List LabelInfo)
    (es : List (Nat × ElemSt)) (i : Nat) (h : i ∉ ls.map LabelInfo.element) :
    findElem (ls.foldl (updLabelStep pos cam) es) i = findElem es i := by
  induction ls generalizing es with
  | nil => rfl
  | cons l ls ih =>
    simp only [List.map_cons, List.mem_cons, not_or] at h
    rw [List.foldl_cons, ih _ h.2]
    unfold updLabelStep
    cases l.object with
    | none => rfl
    | some o => exact findElem_mapAt_ne _ _ _ _ h.1

theorem updFold_mem (pos : Nat → Vec3) (cam : Vec3) (ls : List LabelInfo)
    (es : List (Nat × ElemSt)) (hnd : (ls.map LabelInfo.element).Nodup)
    (l : LabelInfo) (hl : l ∈ ls) (o : Nat) (ho : l.object = some o) :
    findElem (ls.foldl (updLabelStep pos cam) es) l.element
      = (findElem es l.element).map (fun e => { e with opacity := opacityFor pos cam o }) := by
  induction ls generalizing es with
  | nil => cases hl
  | cons a ls ih =>
    simp only [List.map_cons, List.nodup_cons] at hnd
    rcases List.mem_cons.mp hl with h | h
    · subst h
      rw [List.foldl_cons, updFold_notmem _ _ _ _ _ hnd.1]
      unfold updLabelStep
      rw [ho]
      exact findElem_mapAt_self _ _ _
    · have hne : a.element ≠ l.element := by
        intro hcontra
        exact hnd.1 (hcontra ▸ List.mem_map_of_mem LabelInfo.element h)
      rw [List.foldl_cons]
      rw [ih _ hnd.2 h]
      unfold updLabelStep
      cases a.object with
      | none => rfl
      | some o2 => rw [findElem_mapAt_ne _ _ _ _ (Ne.symm hne)]

/-- C5: for every label processed by the per-frame update with an
object, the overlay opacity is set from the distance rule with the
boundary treated as full opacity: squared distance above 100 (distance
above 10) gives 0.3, anything else, including the boundary, gives 1.
The conjuncts instantiate the rule at distances 15, 5 and 10 along the
x axis from a camera at the origin. -/
theorem claim_C5_opacity (ls : List LabelInfo) (cam : Vec3) (s : ViewerState)
    (hnd : (ls.map LabelInfo.element).Nodup)
    (l : LabelInfo) (hl : l ∈ ls) (o : Nat) (ho : l.object = some o)
    (he : (findElem s.elems l.element).isSome = true) :
    getOpacity (updateLabels ls cam s).elems l.element
      = some (if dist2 (s.objPos o) cam > 100 then "0.3" else "1") ∧
    opacityFor (fun _ => ⟨15, 0, 0⟩) ⟨0, 0, 0⟩ 0 = "0.3" ∧
    opacityFor (fun _ => ⟨5, 0, 0⟩) ⟨0, 0, 0⟩ 0 = "1" ∧
    opacityFor (fun _ => ⟨10, 0, 0⟩) ⟨0, 0, 0⟩ 0 = "1" := by
  refine ⟨?_, by norm_num [opacityFor, dist2], by norm_num [opacityFor, dist2],
    by norm_num [opacityFor, dist2]⟩
  unfold updateLabels getOpacity
  rw [updFold_mem _ _ _ _ hnd l hl o ho]
  rcases Option.isSome_iff_exists.mp he with ⟨e, hfe⟩
  rw [hfe]
  rfl

/-- Witness for C5: a single label whose object sits 15 units from the
camera gets reduced opacity. -/
theorem claim_C5_opacity_witness :
    (([⟨some 1, 0, none⟩] : List LabelInfo).map LabelInfo.element).Nodup ∧
    (getOpacity (updateLabels [⟨some 1, 0, none⟩] ⟨0, 0, 0⟩
        ({ initSt with elems := [(0, ⟨"fossil-label", "L", "", "", none⟩)],
                       objPos := fun _ => ⟨15, 0, 0⟩ })).elems 0
      = some (if dist2 (((fun _ => (⟨15, 0, 0⟩ : Vec3))) 1) ⟨0, 0, 0⟩ > 100 then "0.3" else "1") ∧
     opacityFor (fun _ => ⟨15, 0, 0⟩) ⟨0, 0, 0⟩ 0 = "0.3" ∧
     opacityFor (fun _ => ⟨5, 0, 0⟩) ⟨0, 0, 0⟩ 0 = "1" ∧
     opacityFor (fun _ => ⟨10, 0, 0⟩) ⟨0, 0, 0⟩ 0 = "1") :=
  ⟨by decide,
   claim_C5_opacity [⟨some 1, 0, none⟩] ⟨0, 0, 0⟩
     ({ initSt with elems := [(0, ⟨"fossil-label", "L", "", "", none⟩)],
                    objPos := fun _ => ⟨15, 0, 0⟩ })
     (by decide) ⟨some 1, 0, none⟩ (by simp) 1 rfl (by decide)⟩

/-! Visibility controller lemmas. -/

theorem setDisplays_notmem (es : List (Nat × ElemSt)) (labs : List CompLabel) (d : String)
    (i : Nat) (h : i ∉ labs.map CompLabel.element) :
    findElem (setDisplays es labs d) i = findElem es i := by
  induction labs generalizing es with
  | nil => rfl
  | cons a labs ih =>
    simp only [List.map_cons, List.mem_cons, not_or] at h
    unfold setDisplays
    rw [List.foldl_cons]
    rw [show (labs.foldl (fun es l => mapAt es l.element fun e => { e with display := d })
        (mapAt es a.element fun e => { e with display := d }))
      = setDisplays (mapAt es a.element fun e => { e with display := d }) labs d from rfl]
    rw [ih _ h.2]
    exact findElem_mapAt_ne _ _ _ _ h.1

theorem optmap_display_idem (x : Option ElemSt) (d : String) :
    (x.map (fun e => { e with display := d })).map (fun e => { e with display := d })
      = x.map (fun e => { e with display := d }) := by
  cases x <;> rfl

theorem setDisplays_mem (es : List (Nat × ElemSt)) (labs : List CompLabel) (d : String)
    (i : Nat) (hi : i ∈ labs.map CompLabel.element) :
    findElem (setDisplays es labs d) i
      = (findElem es i).map (fun e => { e with display := d }) := by
  induction labs generalizing es with
  | nil => cases hi
  | cons a labs ih =>
    unfold setDisplays
    rw [List.foldl_cons]
    rw [show (labs.foldl (fun es l => mapAt es l.element fun e => { e with display := d })
        (mapAt es a.element fun e => { e with display := d }))
      = setDisplays (mapAt es a.element fun e => { e with display := d }) labs d from rfl]
    by_cases hmem : i ∈ labs.map CompLabel.element
    · rw [ih _ hmem]
      by_cases hia : i = a.element
      · rw [hia, findElem_mapAt_self, optmap_display_idem]
      · rw [findElem_mapAt_ne _ _ _ _ hia]
    · have hia : i = a.element := by
        simp only [List.map_cons, List.mem_cons] at hi
        rcases hi with h | h
        · exact h
        · exact absurd h hmem
      rw [setDisplays_notmem _ _ _ _ hmem, hia, findElem_mapAt_self]

theorem getDisplay_setDisplays (es : List (Nat × ElemSt)) (labs : List CompLabel) (d : String)
    (i : Nat) (hi : i ∈ labs.map CompLabel.element)
    (he : (findElem es i).isSome = true) :
    getDisplay (setDisplays es labs d) i = some d := by
  unfold getDisplay
  rw [setDisplays_mem _ _ _ _ hi]
  rcases Option.isSome_iff_exists.mp he with ⟨e, hfe⟩
  rw [hfe]
  rfl

theorem toggle_fields_mesh (s : ViewerState) (cid : Nat) (v : Bool) (m : Nat)
    (hm : (s.comps cid).mesh = some m) :
    (toggleComponentVisibility s cid v).comps
        = Function.update s.comps cid ({ s.comps cid with visible := v }) ∧
    (toggleComponentVisibility s cid v).nodeVisible = Function.update s.nodeVisible m v ∧
    (toggleComponentVisibility s cid v).elems
      = ((s.comps cid).labels.getD []).foldl
          (fun es l => mapAt es l.element fun e =>
            { e with display := if v then "block" else "none" }) s.elems := by
  unfold toggleComponentVisibility
  cases hl : (s.comps cid).labels <;> simp [hm, hl, setDisplays]

theorem toggle_fields_group (s : ViewerState) (cid : Nat) (v : Bool) (g : Nat)
    (hm : (s.comps cid).mesh = none) (hg : (s.comps cid).group = some g) :
    (toggleComponentVisibility s cid v).comps
        = Function.update s.comps cid ({ s.comps cid with visible := v }) ∧
    (toggleComponentVisibility s cid v).nodeVisible = Function.update s.nodeVisible g v ∧
    (toggleComponentVisibility s cid v).elems
      = ((s.comps cid).labels.getD []).foldl
          (fun es l => mapAt es l.element fun e =>
            { e with display := if v then "block" else "none" }) s.elems := by
  unfold toggleComponentVisibility
  cases hl : (s.comps cid).labels <;> simp [hm, hg, hl, setDisplays]

/-- C6: after toggleComponentVisibility returns, the stored visibility
flag, the visible flag of the 3D subtree (the mesh when present, else
the group) and the display state of every bound overlay element all
equal the requested value; the definition is a plain function, so the
update is synchronous and no intermediate state is observable. -/
theorem claim_C6_toggle (s : ViewerState) (cid : Nat) (v : Bool)
    (hsub : (s.comps cid).mesh.isSome = true ∨ (s.comps cid).group.isSome = true)
    (hels : ∀ lab ∈ (s.comps cid).labels.getD [],
      (findElem s.elems lab.element).isSome = true) :
    ((toggleComponentVisibility s cid v).comps cid).visible = v ∧
    (∀ m, (s.comps cid).mesh = some m →
      (toggleComponentVisibility s cid v).nodeVisible m = v) ∧
    ((s.comps cid).mesh = none → ∀ g, (s.comps cid).group = some g →
      (toggleComponentVisibility s cid v).nodeVisible g = v) ∧
    (∀ lab ∈ (s.comps cid).labels.getD [],
      getDisplay (toggleComponentVisibility s cid v).elems lab.element
        = some (if v then "block" else "none")) := by
  have hdisp : ∀ lab ∈ (s.comps cid).labels.getD [],
      getDisplay (((s.comps cid).labels.getD []).foldl
        (fun es l => mapAt es l.element fun e =>
          { e with display := if v then "block" else "none" }) s.elems) lab.element
      = some (if v then "block" else "none") := by
    intro lab hlab
    exact getDisplay_setDisplays _ _ _ _
      (List.mem_map_of_mem CompLabel.element hlab) (hels lab hlab)
  rcases hm : (s.comps cid).mesh with _ | m
  · rcases hg : (s.comps cid).group with _ | g
    · rw [hm, hg] at hsub
      rcases hsub with h | h <;> cases h
    · obtain ⟨hc, hn, he⟩ := toggle_fields_group s cid v g hm hg
      refine ⟨?_, ?_, ?_, ?_⟩
      · rw [hc, Function.update_same]
      · intro m2 hm2
        cases hm2
      · intro _ g2 hg2
        cases hg2
        rw [hn, Function.update_same]
      · intro lab hlab
        rw [he]
        exact hdisp lab hlab
  · obtain ⟨hc, hn, he⟩ := toggle_fields_mesh s cid v m hm
    refine ⟨?_, ?_, ?_, ?_⟩
    · rw [hc, Function.update_same]
    · intro m2 hm2
      cases hm2
      rw [hn, Function.update_same]
    · intro hnone
      cases hnone
    · intro lab hlab
      rw [he]
      exact hdisp lab hlab

/-- Witness for C6: a one-component state with a group subtree and one
bound label, toggled off. -/
theorem claim_C6_toggle_witness :
    ((sampleToggleSt.comps 0).mesh.isSome = true ∨
      (sampleToggleSt.comps 0).group.isSome = true) ∧
    (∀ lab ∈ (sampleToggleSt.comps 0).labels.getD [],
      (findElem sampleToggleSt.elems lab.element).isSome = true) ∧
    (((toggleComponentVisibility sampleToggleSt 0 false).comps 0).visible = false ∧
     (∀ m, (sampleToggleSt.comps 0).mesh = some m →
       (toggleComponentVisibility sampleToggleSt 0 false).nodeVisible m = false) ∧
     ((sampleToggleSt.comps 0).mesh = none → ∀ g,
       (sampleToggleSt.comps 0).group = some g →
       (toggleComponentVisibility sampleToggleSt 0 false).nodeVisible g = false) ∧
     (∀ lab ∈ (sampleToggleSt.comps 0).labels.getD [],
       getDisplay (toggleComponentVisibility sampleToggleSt 0 false).elems lab.element
         = some (if false then "block" else "none"))) :=
  ⟨Or.inr (by decide), by decide,
   claim_C6_toggle sampleToggleSt 0 false (Or.inr (by decide)) (by decide)⟩

theorem setDisplays_isSome (es : List (Nat × ElemSt)) (labs : List CompLabel) (d : String)
    (i : Nat) :
    (findElem (setDisplays es labs d) i).isSome = (findElem es i).isSome := by
  by_cases h : i ∈ labs.map CompLabel.element
  · rw [setDisplays_mem _ _ _ _ h]
    cases findElem es i <;> rfl
  · rw [setDisplays_notmem _ _ _ _ h]

/-- C7: toggling a component off and back on restores the stored flag,
the subtree visible flag and the display state of every bound label
exactly, provided the component started visible with its subtree shown
and its labels displayed as block. -/
theorem claim_C7_roundTrip (s : ViewerState) (cid : Nat)
    (hsub : (s.comps cid).mesh.isSome = true ∨ (s.comps cid).group.isSome = true)
    (hvis : (s.comps cid).visible = true)
    (hmesh : ∀ m, (s.comps cid).mesh = some m → s.nodeVisible m = true)
    (hgrp : ∀ g, (s.comps cid).group = some g → s.nodeVisible g = true)
    (hdisp : ∀ lab ∈ (s.comps cid).labels.getD [],
      getDisplay s.elems lab.element = some "block") :
    (((toggleComponentVisibility (toggleComponentVisibility s cid false) cid true).comps
        cid).visible = (s.comps cid).visible) ∧
    (∀ m, (s.comps cid).mesh = some m →
      (toggleComponentVisibility (toggleComponentVisibility s cid false) cid true).nodeVisible m
        = s.nodeVisible m) ∧
    (∀ g, (s.comps cid).group = some g →
      (toggleComponentVisibility (toggleComponentVisibility s cid false) cid true).nodeVisible g
        = s.nodeVisible g) ∧
    (∀ lab ∈ (s.comps cid).labels.getD [],
      getDisplay
        (toggleComponentVisibility (toggleComponentVisibility s cid false) cid true).elems
        lab.element
        = getDisplay s.elems lab.element) := by
  have hels : ∀ lab ∈ (s.comps cid).labels.getD [],
      (findElem s.elems lab.element).isSome = true := by
    intro lab hlab
    have := hdisp lab hlab
    unfold getDisplay at this
    cases hfe : findElem s.elems lab.element with
    | none => rw [hfe] at this; cases this
    | some e => rfl
  rcases hm : (s.comps cid).mesh with _ | m
  case some =>
    obtain ⟨hc1, hn1, he1⟩ := toggle_fields_mesh s cid false m hm
    have hcomp1 : (toggleComponentVisibility s cid false).comps cid
        = { s.comps cid with visible := false } := by
      rw [hc1, Function.update_same]
    have hm1 : ((toggleComponentVisibility s cid false).comps cid).mesh = some m := by
      rw [hcomp1]; exact hm
    obtain ⟨hc2, hn2, he2⟩ := toggle_fields_mesh (toggleComponentVisibility s cid false)
      cid true m hm1
    have hlabs1 : ((toggleComponentVisibility s cid false).comps cid).labels
        = (s.comps cid).labels := by
      rw [hcomp1]
    refine ⟨?_, ?_, ?_, ?_⟩
    · rw [hc2, Function.update_same, hvis]
    · intro m2 hm2
      cases hm2
      rw [hn2, Function.update_same, hmesh m hm]
    · intro g hg
      rw [hn2, hn1]
      by_cases hgm : g = m
      · subst hgm
        rw [Function.update_same, hmesh g hm]
      · rw [Function.update_noteq hgm, Function.update_noteq hgm]
    · intro lab hlab
      have hmem := List.mem_map_of_mem CompLabel.element hlab
      have hs1 : (findElem (toggleComponentVisibility s cid false).elems lab.element).isSome
          = true := by
        rw [he1]
        show (findElem (setDisplays s.elems ((s.comps cid).labels.getD [])
          (if false = true then "block" else "none")) lab.element).isSome = true
        rw [setDisplays_isSome]
        exact hels lab hlab
      rw [he2, hlabs1]
      show getDisplay (setDisplays (toggleComponentVisibility s cid false).elems
          ((s.comps cid).labels.getD []) (if true = true then "block" else "none")) lab.element
        = getDisplay s.elems lab.element
      rw [getDisplay_setDisplays _ _ _ _ hmem hs1, hdisp lab hlab]
      rfl
  case none =>
    rcases hg : (s.comps cid).group with _ | g
    case none =>
      rw [hm, hg] at hsub
      rcases hsub with h | h <;> cases h
    case some =>
      obtain ⟨hc1, hn1, he1⟩ := toggle_fields_group s cid false g hm hg
      have hcomp1 : (toggleComponentVisibility s cid false).comps cid
          = { s.comps cid with visible := false } := by
        rw [hc1, Function.update_same]
      have hm1 : ((toggleComponentVisibility s cid false).comps cid).mesh = none := by
        rw [hcomp1]; exact hm
      have hg1 : ((toggleComponentVisibility s cid false).comps cid).group = some g := by
        rw [hcomp1]; exact hg
      obtain ⟨hc2, hn2, he2⟩ := toggle_fields_group (toggleComponentVisibility s cid false)
        cid true g hm1 hg1
      have hlabs1 : ((toggleComponentVisibility s cid false).comps cid).labels
          = (s.comps cid).labels := by
        rw [hcomp1]
      refine ⟨?_, ?_, ?_, ?_⟩
      · rw [hc2, Function.update_same, hvis]
      · intro m2 hm2
        cases hm2
      · intro g2 hg2
        cases hg2
        rw [hn2, Function.update_same, hgrp g hg]
      · intro lab hlab
        have hmem := List.mem_map_of_mem CompLabel.element hlab
        have hs1 : (findElem (toggleComponentVisibility s cid false).elems lab.element).isSome
            = true := by
          rw [he1]
          show (findElem (setDisplays s.elems ((s.comps cid).labels.getD [])
            (if false = true then "block" else "none")) lab.element).isSome = true
          rw [setDisplays_isSome]
          exact hels lab hlab
        rw [he2, hlabs1]
        show getDisplay (setDisplays (toggleComponentVisibility s cid false).elems
            ((s.comps cid).labels.getD []) (if true = true then "block" else "none")) lab.element
          = getDisplay s.elems lab.element
        rw [getDisplay_setDisplays _ _ _ _ hmem hs1, hdisp lab hlab]
        rfl

/-- Witness for C7 at the sample one-component state. -/
theorem claim_C7_roundTrip_witness :
    ((sampleToggleSt.comps 0).mesh.isSome = true ∨
      (sampleToggleSt.comps 0).group.isSome = true) ∧
    (sampleToggleSt.comps 0).visible = true ∧
    (∀ lab ∈ (sampleToggleSt.comps 0).labels.getD [],
      getDisplay sampleToggleSt.elems lab.element = some "block") ∧
    ((((toggleComponentVisibility (toggleComponentVisibility sampleToggleSt 0 false) 0
          true).comps 0).visible = (sampleToggleSt.comps 0).visible) ∧
     (∀ m, (sampleToggleSt.comps 0).mesh = some m →
       (toggleComponentVisibility (toggleComponentVisibility sampleToggleSt 0 false) 0
          true).nodeVisible m = sampleToggleSt.nodeVisible m) ∧
     (∀ g, (sampleToggleSt.comps 0).group = some g →
       (toggleComponentVisibility (toggleComponentVisibility sampleToggleSt 0 false) 0
          true).nodeVisible g = sampleToggleSt.nodeVisible g) ∧
     (∀ lab ∈ (sampleToggleSt.comps 0).labels.getD [],
       getDisplay
         (toggleComponentVisibility (toggleComponentVisibility sampleToggleSt 0 false) 0
           true).elems lab.element
         = getDisplay sampleToggleSt.elems lab.element)) :=
  ⟨Or.inr (by decide), by decide, by decide,
   claim_C7_roundTrip sampleToggleSt 0 (Or.inr (by decide)) (by decide)
     (by decide) (by decide) (by decide)⟩

attribute [ext] ViewerState

/-! Idempotence of the teardown. -/

theorem mem_removeObj (cs : List SceneNode) (oid : Nat) (n : SceneNode)
    (h : n ∈ removeObj cs oid) : n ∈ cs ∧ ∀ o e, n = SceneNode.css2d o e → o ≠ oid := by
  unfold removeObj at h
  have hmf := List.mem_filter.mp h
  refine ⟨hmf.1, ?_⟩
  intro o e hn
  subst hn
  have hb := hmf.2
  simpa using hb

theorem mem_foldl_removeObj (ids : List Nat) (cs : List SceneNode) (n : SceneNode)
    (h : n ∈ ids.foldl removeObj cs) : n ∈ cs ∧ ∀ o e, n = SceneNode.css2d o e → o ∉ ids := by
  induction ids generalizing cs with
  | nil => exact ⟨h, fun o e _ => List.not_mem_nil o⟩
  | cons i ids ih =>
    rw [List.foldl_cons] at h
    obtain ⟨h1, h2⟩ := ih _ h
    obtain ⟨h3, h4⟩ := mem_removeObj cs i n h1
    refine ⟨h3, ?_⟩
    intro o e hn
    simp only [List.mem_cons, not_or]
    exact ⟨h4 o e hn, h2 o e hn⟩

theorem css2d_mem_collectList (cs : List SceneNode) (o e : Nat)
    (h : SceneNode.css2d o e ∈ cs) : o ∈ collectCssList cs := by
  induction cs with
  | nil => cases h
  | cons n ns ih =>
    rcases List.mem_cons.mp h with h | h
    · subst h
      show o ∈ collectCss (SceneNode.css2d o e) ++ collectCssList ns
      simp [collectCss]
    · show o ∈ collectCss n ++ collectCssList ns
      exact List.mem_append.mpr (Or.inr (ih h))

theorem sweepScene_noTop (cs : List SceneNode) (o e : Nat) :
    SceneNode.css2d o e ∉ sweepScene cs := by
  intro h
  obtain ⟨h1, h2⟩ := mem_foldl_removeObj _ _ _ h
  exact h2 o e rfl (css2d_mem_collectList cs o e h1)

theorem removeObj_noTop (cs : List SceneNode)
    (hcs : ∀ o e, SceneNode.css2d o e ∉ cs) (i : Nat) : removeObj cs i = cs :=
  List.filter_eq_self.mpr (fun n hn => by
    cases n with
    | css2d o e => exact absurd hn (hcs o e)
    | group g ch => rfl)

theorem foldl_removeObj_noTop (cs : List SceneNode)
    (hcs : ∀ o e, SceneNode.css2d o e ∉ cs) (ids : List Nat) :
    ids.foldl removeObj cs = cs := by
  induction ids with
  | nil => rfl
  | cons i ids ih => rw [List.foldl_cons, removeObj_noTop cs hcs i, ih]

theorem sweepScene_idem (cs : List SceneNode) :
    sweepScene (sweepScene cs) = sweepScene cs :=
  foldl_removeObj_noTop (sweepScene cs) (fun o e => sweepScene_noTop cs o e)
    (collectCssList (sweepScene cs))

theorem detachAll_eq_map (ids : List Nat) (es : List (Nat × ElemSt)) :
    detachAll es ids
      = es.map (fun p => if p.1 ∈ ids then (p.1, { p.2 with parent := none }) else p) := by
  induction ids generalizing es with
  | nil =>
      show es = es.map fun p => if p.1 ∈ ([] : List Nat) then (p.1, { p.2 with parent := none }) else p
      simp
  | cons i ids ih =>
    show detachAll (mapAt es i (fun e => { e with parent := none })) ids = _
    rw [ih]
    unfold mapAt
    rw [List.map_map]
    apply List.map_congr_left
    intro p _
    by_cases hpi : p.1 = i
    · by_cases hpm : p.1 ∈ ids <;> simp [hpi, hpm, Function.comp]
    · by_cases hpm : p.1 ∈ ids <;> simp [hpi, hpm, Function.comp]

theorem orphanIds_detachAll (es : List (Nat × ElemSt)) (c : Nat → Bool) :
    orphanIds (detachAll es (orphanIds es c)) c = [] := by
  rw [detachAll_eq_map]
  refine List.map_eq_nil_iff.mpr (List.filter_eq_nil_iff.mpr ?_)
  intro p hp
  rcases List.mem_map.mp hp with ⟨q, hq, rfl⟩
  by_cases hmem : q.1 ∈ orphanIds es c
  · rw [if_pos hmem]
    simp
  · rw [if_neg hmem]
    intro hcontra
    exact hmem (List.mem_map_of_mem Prod.fst (List.mem_filter.mpr ⟨hq, hcontra⟩))

theorem removeAllLabels_elems_some (s : ViewerState) (ls : List LabelInfo)
    (h : s.labels = some ls) :
    (removeAllLabels s).elems
      = detachAll (detachListed s.elems ls)
          (orphanIds (detachListed s.elems ls) s.containerNodes) := by
  simp [removeAllLabels, h]

theorem removeAllLabels_elems_none (s : ViewerState) (h : s.labels = none) :
    (removeAllLabels s).elems
      = detachAll s.elems (orphanIds s.elems s.containerNodes) := by
  simp [removeAllLabels, h]

/-- C4: the teardown removeAllLabels is idempotent; the second of two
consecutive calls is a no-op, returning the exact same state, so no
scene object, no element attachment and no label entry changes. -/
theorem claim_C4_idempotent (s : ViewerState) :
    removeAllLabels (removeAllLabels s) = removeAllLabels s := by
  have hsw : sweepScene (removeAllLabels s).sceneChildren
      = (removeAllLabels s).sceneChildren := by
    rw [removeAllLabels_sceneChildren]
    exact sweepScene_idem s.sceneChildren
  have hcont : (removeAllLabels s).containerNodes = s.containerNodes :=
    removeAllLabels_containerNodes s
  have helems : (removeAllLabels (removeAllLabels s)).elems = (removeAllLabels s).elems := by
    cases hl : s.labels with
    | some ls =>
        have h1 : (removeAllLabels s).labels = some [] :=
          removeAllLabels_labels_some s ls hl
        rw [removeAllLabels_elems_some (removeAllLabels s) [] h1]
        show detachAll (removeAllLabels s).elems
            (orphanIds (removeAllLabels s).elems (removeAllLabels s).containerNodes)
          = (removeAllLabels s).elems
        rw [hcont, removeAllLabels_elems_some s ls hl, orphanIds_detachAll]
        rfl
    | none =>
        have h1 : (removeAllLabels s).labels = none :=
          removeAllLabels_labels_none s hl
        rw [removeAllLabels_elems_none (removeAllLabels s) h1]
        rw [hcont, removeAllLabels_elems_none s hl, orphanIds_detachAll]
        rfl
  ext1
  · rw [removeAllLabels_sceneChildren, hsw]
  · cases hl : s.labels with
    | some ls =>
        have h1 : (removeAllLabels s).labels = some [] :=
          removeAllLabels_labels_some s ls hl
        rw [removeAllLabels_labels_some (removeAllLabels s) [] h1, h1]
    | none =>
        have h1 : (removeAllLabels s).labels = none :=
          removeAllLabels_labels_none s hl
        rw [removeAllLabels_labels_none (removeAllLabels s) h1, h1]
  · exact helems
  · rw [removeAllLabels_comps]
  · rw [removeAllLabels_nodeVisible]
  · rw [removeAllLabels_objPos]
  · rw [removeAllLabels_containerNodes]
  · rw [removeAllLabels_currentModel]
  · rw [removeAllLabels_crossSection]
  · rw [removeAllLabels_toggles]
  · rw [removeAllLabels_fossilType]
  · rw [removeAllLabels_fresh]

/-! Factory step and fold facts. -/

theorem stepComp_facts (children : List SceneNode) (cids : List Nat) (s : ViewerState)
    (cs : CompSpec) (l : List LabelInfo) (hl : s.labels = some l) :
    (stepComp (children, cids, s) cs).2.2.labels = some (l ++ newInfos [cs] s.fresh) ∧
    (stepComp (children, cids, s) cs).2.2.fresh = s.fresh + labelCost cs ∧
    (stepComp (children, cids, s) cs).2.1 = cids ++ [s.fresh + 1] ∧
    (∀ c, c ≠ s.fresh + 1 → (stepComp (children, cids, s) cs).2.2.comps c = s.comps c) ∧
    ((stepComp (children, cids, s) cs).2.2.comps (s.fresh + 1)).name = cs.name := by
  cases hlb : cs.label with
  | none =>
      refine ⟨?_, ?_, ?_, ?_, ?_⟩
      · simp [stepComp, hlb, newInfos, hl]
      · simp [stepComp, hlb, labelCost]
      · simp [stepComp, hlb]
      · intro c hc
        simp only [stepComp, hlb]
        exact Function.update_noteq hc _ _
      · simp [stepComp, hlb, Function.update_same]
  | some lb =>
      refine ⟨?_, ?_, ?_, ?_, ?_⟩
      · simp [stepComp, addLabel, hlb, newInfos, hl]
      · simp [stepComp, addLabel, hlb, labelCost]
      · simp [stepComp, addLabel, hlb]
      · intro c hc
        simp only [stepComp, addLabel, hlb]
        rw [Function.update_noteq hc, Function.update_noteq hc]
      · simp [stepComp, addLabel, hlb, Function.update_same]

theorem newInfos_cons (cs : CompSpec) (spec : List CompSpec) (b : Nat) :
    newInfos (cs :: spec) b = newInfos [cs] b ++ newInfos spec (b + labelCost cs) := by
  cases hlb : cs.label <;> simp [newInfos, labelCost, hlb]

theorem labelCost_ge_two (cs : CompSpec) : 2 ≤ labelCost cs := by
  unfold labelCost
  split <;> omega

theorem foldSpec_facts (spec : List CompSpec) (children : List SceneNode) (cids : List Nat)
    (s : ViewerState) (l : List LabelInfo) (hl : s.labels = some l) :
    (spec.foldl stepComp (children, cids, s)).2.2.labels
        = some (l ++ newInfos spec s.fresh) ∧
    (spec.foldl stepComp (children, cids, s)).2.2.fresh = s.fresh + specCost spec ∧
    (spec.foldl stepComp (children, cids, s)).2.1 = cids ++ newCids spec s.fresh ∧
    (∀ c, c < s.fresh → (spec.foldl stepComp (children, cids, s)).2.2.comps c = s.comps c) ∧
    ((newCids spec s.fresh).map
        (fun c => ((spec.foldl stepComp (children, cids, s)).2.2.comps c).name)
      = spec.map CompSpec.name) := by
  induction spec generalizing children cids s l with
  | nil => simp [newInfos, newCids, specCost, hl]
  | cons cs spec ih =>
    obtain ⟨h1, h2, h3, h4, h5⟩ := stepComp_facts children cids s cs l hl
    have hcost := labelCost_ge_two cs
    rcases hstep : stepComp (children, cids, s) cs with ⟨ch1, r1⟩
    rcases hr1 : r1 with ⟨cids1, s1⟩
    subst hr1
    rw [hstep] at h1 h2 h3 h4 h5
    simp only at h1 h2 h3 h4 h5
    obtain ⟨ih1, ih2, ih3, ih4, ih5⟩ := ih ch1 cids1 s1 _ h1
    rw [List.foldl_cons, hstep]
    refine ⟨?_, ?_, ?_, ?_, ?_⟩
    · rw [ih1, h2, newInfos_cons cs spec s.fresh, List.append_assoc]
    · rw [ih2, h2]
      simp [specCost]
      omega
    · rw [ih3, h3]
      simp [newCids, h2, List.append_assoc]
    · intro c hc
      rw [ih4 c (by omega), h4 c (by omega)]
    · show ((s.fresh + 1) :: newCids spec (s.fresh + labelCost cs)).map
          (fun c => (((spec.foldl stepComp (ch1, cids1, s1)).2.2.comps c).name))
        = cs.name :: spec.map CompSpec.name
      rw [List.map_cons]
      congr 1
      · rw [ih4 (s.fresh + 1) (by omega), h5]
      · rw [← h2]
        exact ih5

theorem newInfos_elem_bounds (spec : List CompSpec) (b : Nat) :
    ∀ i ∈ newInfos spec b, b ≤ i.element ∧ i.element < b + specCost spec := by
  induction spec generalizing b with
  | nil => intro i hi; cases hi
  | cons cs spec ih =>
    intro i hi
    have hcost := labelCost_ge_two cs
    cases hlb : cs.label with
    | none =>
        rw [newInfos, hlb] at hi
        obtain ⟨hlo, hhi⟩ := ih (b + 2) i hi
        have hlc : labelCost cs = 2 := by simp [labelCost, hlb]
        simp only [specCost, hlc]
        omega
    | some lb =>
        rw [newInfos, hlb] at hi
        have hlc : labelCost cs = 4 := by simp [labelCost, hlb]
        rcases List.mem_cons.mp hi with h | h
        · subst h
          simp only [specCost, hlc]
          show b ≤ b + 2 ∧ b + 2 < b + (4 + specCost spec)
          omega
        · obtain ⟨hlo, hhi⟩ := ih (b + 4) i h
          simp only [specCost, hlc]
          omega

theorem runFactory_facts (spec : List CompSpec) (s : ViewerState) (l : List LabelInfo)
    (hl : s.labels = some l) :
    (runFactory spec s).2.2.labels = some (l ++ newInfos spec (s.fresh + 1)) ∧
    (runFactory spec s).2.2.fresh = s.fresh + 1 + specCost spec ∧
    (runFactory spec s).2.1 = newCids spec (s.fresh + 1) ∧
    ((newCids spec (s.fresh + 1)).map
        (fun c => ((runFactory spec s).2.2.comps c).name) = spec.map CompSpec.name) := by
  obtain ⟨h1, h2, h3, _, h5⟩ := foldSpec_facts spec [] []
    ({ s with fresh := s.fresh + 1,
              nodeVisible := Function.update s.nodeVisible s.fresh true }) l hl
  exact ⟨h1, h2, by rw [runFactory]; exact h3, h5⟩

theorem loadPrefix_labels (s : ViewerState) (ty : String) (l : List LabelInfo)
    (hl : s.labels = some l) : (loadPrefix s ty).labels = some [] := by
  simp only [loadPrefix]
  exact removeAllLabels_labels_some _ l hl

theorem loadPrefix_fresh (s : ViewerState) (ty : String) :
    (loadPrefix s ty).fresh = s.fresh := by
  simp only [loadPrefix]
  exact removeAllLabels_fresh _

theorem loadPrefix_currentModel (s : ViewerState) (ty : String) :
    (loadPrefix s ty).currentModel = s.currentModel := by
  simp only [loadPrefix]
  exact removeAllLabels_currentModel _

theorem loadPrefix_fossilType (s : ViewerState) (ty : String) :
    (loadPrefix s ty).fossilType = ty := rfl

theorem loadFossil_known (s : ViewerState) (l : List LabelInfo) (hl : s.labels = some l)
    (ty : String) (spec : List CompSpec) (hk : fossilSpec ty = some spec) :
    (loadFossil s ty).labels = some (newInfos spec (s.fresh + 1)) ∧
    (loadFossil s ty).fresh = s.fresh + 1 + specCost spec ∧
    (loadFossil s ty).toggles = newCids spec (s.fresh + 1) ∧
    ((newCids spec (s.fresh + 1)).map
        (fun c => ((loadFossil s ty).comps c).name) = spec.map CompSpec.name) := by
  obtain ⟨f1, f2, f3, f4⟩ := runFactory_facts spec (loadPrefix s ty) []
    (loadPrefix_labels s ty l hl)
  rw [loadPrefix_fresh s ty] at f1 f2 f3 f4
  rw [List.nil_append] at f1
  simp only [loadFossil, hk]
  exact ⟨f1, f2, f3, f4⟩

theorem inv_foldl (ks : List String) (hks : ∀ j ∈ ks, (fossilSpec j).isSome = true)
    (s : ViewerState) (l : List LabelInfo) (hl : s.labels = some l)
    (hb : ∀ i ∈ l, i.element < s.fresh) :
    ∃ l2, (ks.foldl loadFossil s).labels = some l2 ∧
      ∀ i ∈ l2, i.element < (ks.foldl loadFossil s).fresh := by
  induction ks generalizing s l with
  | nil => exact ⟨l, hl, hb⟩
  | cons k ks ih =>
    have hk := hks k (List.mem_cons_self k ks)
    rcases Option.isSome_iff_exists.mp hk with ⟨spec, hspec⟩
    obtain ⟨f1, f2, _, _⟩ := loadFossil_known s l hl k spec hspec
    rw [List.foldl_cons]
    refine ih (fun j hj => hks j (List.mem_cons_of_mem k hj)) (loadFossil s k)
      (newInfos spec (s.fresh + 1)) f1 ?_
    intro i hi
    obtain ⟨_, hhi⟩ := newInfos_elem_bounds spec (s.fresh + 1) i hi
    omega

/-- C1: along any sequence of known specimen loads from the initial
page state, each load leaves window.labels holding exactly the entries
the current factory pushes (the array is emptied by the teardown before
the factory runs), and none of these entries is a label of any earlier
specimen: their element ids are disjoint from every entry present
before the load. -/
theorem claim_C1_leakFree (ks : List String)
    (hks : ∀ j ∈ ks, (fossilSpec j).isSome = true)
    (k : String) (spec : List CompSpec) (hk : fossilSpec k = some spec) :
    (loadFossil (ks.foldl loadFossil initSt) k).labels
        = some (newInfos spec ((ks.foldl loadFossil initSt).fresh + 1)) ∧
    (∀ i ∈ newInfos spec ((ks.foldl loadFossil initSt).fresh + 1),
      ∀ j ∈ (ks.foldl loadFossil initSt).labels.getD [], i.element ≠ j.element) := by
  obtain ⟨l0, hl0, hb0⟩ := inv_foldl ks hks initSt [] rfl (by intro i hi; cases hi)
  obtain ⟨f1, _, _, _⟩ := loadFossil_known (ks.foldl loadFossil initSt) l0 hl0 k spec hk
  refine ⟨f1, ?_⟩
  intro i hi j hj
  rw [hl0] at hj
  obtain ⟨hlo, _⟩ := newInfos_elem_bounds spec ((ks.foldl loadFossil initSt).fresh + 1) i hi
  have := hb0 j (by simpa using hj)
  omega

/-- Witness for C1: load fusuline, then ostracod. -/
theorem claim_C1_leakFree_witness :
    (∀ j ∈ ["fusuline"], (fossilSpec j).isSome = true) ∧
    fossilSpec "ostracod" = some ostracodSpec ∧
    ((loadFossil (["fusuline"].foldl loadFossil initSt) "ostracod").labels
        = some (newInfos ostracodSpec ((["fusuline"].foldl loadFossil initSt).fresh + 1)) ∧
     (∀ i ∈ newInfos ostracodSpec ((["fusuline"].foldl loadFossil initSt).fresh + 1),
       ∀ j ∈ (["fusuline"].foldl loadFossil initSt).labels.getD [],
         i.element ≠ j.element)) :=
  ⟨by decide, rfl, claim_C1_leakFree ["fusuline"] (by decide) "ostracod" ostracodSpec rfl⟩

/-- Counterexample for C2: the claim says an unknown key is rejected
before any teardown, leaving the previous specimen intact.  In the
code the teardown runs first: after loading fusuline and then
requesting the unknown key trilobite, the previously populated global
label array is empty and the toggle panel is cleared. -/
theorem claim_C2_counterexample :
    (loadFossil initSt "fusuline").labels ≠ some [] ∧
    (loadFossil (loadFossil initSt "fusuline") "trilobite").labels = some [] ∧
    (loadFossil initSt "fusuline").toggles ≠ [] ∧
    (loadFossil (loadFossil initSt "fusuline") "trilobite").toggles = [] :=
  ⟨by decide, by decide, by decide, by decide⟩

/-- C2 as amended: a swap request for an unknown key is not rejected up
front.  The teardown still runs: the global label array is emptied and
the toggle panel is cleared; no new model is built, the currentModel
variable is unchanged and the old model object is re-added to the
scene, and fossilType records the unknown key. -/
theorem claim_C2_amended (s : ViewerState) (l : List LabelInfo) (hl : s.labels = some l)
    (k : String) (hk : fossilSpec k = none) :
    (loadFossil s k).labels = some [] ∧
    (loadFossil s k).toggles = [] ∧
    (loadFossil s k).currentModel = s.currentModel ∧
    (loadFossil s k).fossilType = k ∧
    (∀ m, s.currentModel = some m → m ∈ (loadFossil s k).sceneChildren) := by
  simp only [loadFossil, hk]
  refine ⟨loadPrefix_labels s k l hl, by trivial, loadPrefix_currentModel s k,
    loadPrefix_fossilType s k, ?_⟩
  intro m hm
  show m ∈ (loadPrefix s k).sceneChildren ++ (loadPrefix s k).currentModel.toList
  rw [loadPrefix_currentModel s k, hm]
  exact List.mem_append.mpr (Or.inr (List.mem_singleton.mpr rfl))

/-- Witness for C2 as amended: diatom loaded, then the unknown key
trilobite. -/
theorem claim_C2_amended_witness :
    (loadFossil initSt "diatom").labels = some (newInfos diatomSpec 1) ∧
    fossilSpec "trilobite" = none ∧
    ((loadFossil (loadFossil initSt "diatom") "trilobite").labels = some [] ∧
     (loadFossil (loadFossil initSt "diatom") "trilobite").toggles = [] ∧
     (loadFossil (loadFossil initSt "diatom") "trilobite").currentModel
        = (loadFossil initSt "diatom").currentModel ∧
     (loadFossil (loadFossil initSt "diatom") "trilobite").fossilType = "trilobite" ∧
     (∀ m, (loadFossil initSt "diatom").currentModel = some m →
        m ∈ (loadFossil (loadFossil initSt "diatom") "trilobite").sceneChildren)) :=
  ⟨by decide, rfl,
   claim_C2_amended (loadFossil initSt "diatom") (newInfos diatomSpec 1) (by decide)
     "trilobite" rfl⟩

/-- Counterexample for C3: registration is an unconditional push with
no name check and no failure path, so registering a second component
with an already used name succeeds and leaves the registry with a
duplicate name instead of raising a DuplicateNameError. -/
theorem claim_C3_counterexample :
    registerComponent (registerComponent [] dupComp) dupComp = [dupComp, dupComp] ∧
    ¬ ((registerComponent (registerComponent [] dupComp) dupComp).map
        Component.name).Nodup :=
  ⟨rfl, by decide⟩

/-- C3 as amended: registration appends unconditionally and can never
fail, but after every load of a known specimen the registry contains
only uniquely named components, because each factory registers
pairwise distinct names. -/
theorem claim_C3_amended (s : ViewerState) (l : List LabelInfo) (hl : s.labels = some l)
    (k : String) (spec : List CompSpec) (hk : fossilSpec k = some spec) :
    registerComponent (registerComponent [] dupComp) dupComp = [dupComp, dupComp] ∧
    (((loadFossil s k).toggles).map
        (fun c => ((loadFossil s k).comps c).name)).Nodup := by
  obtain ⟨_, _, htog, hnames⟩ := loadFossil_known s l hl k spec hk
  refine ⟨rfl, ?_⟩
  rw [htog, hnames]
  have hspec : spec = fusulineSpec ∨ spec = radiolarianSpec ∨ spec = foraminiferaSpec ∨
      spec = diatomSpec ∨ spec = conodontSpec ∨ spec = ostracodSpec ∨
      spec = acritarchSpec := by
    unfold fossilSpec at hk
    split_ifs at hk <;> simp_all
  rcases hspec with h | h | h | h | h | h | h <;> subst h <;> decide

/-- Witness for C3 as amended: the conodont load. -/
theorem claim_C3_amended_witness :
    initSt.labels = some [] ∧
    fossilSpec "conodont" = some conodontSpec ∧
    (registerComponent (registerComponent [] dupComp) dupComp = [dupComp, dupComp] ∧
     (((loadFossil initSt "conodont").toggles).map
        (fun c => ((loadFossil initSt "conodont").comps c).name)).Nodup) :=
  ⟨rfl, rfl, claim_C3_amended initSt [] rfl "conodont" conodontSpec rfl⟩

/-- C9: for a well-formed document (one with an overview paragraph
after the title) that carries a trailing citation em, the citation is
appended to the content of the Taxonomy section when a Taxonomy heading
was recognized, and otherwise a standalone Source section is emitted as
the final section; when no citation exists the section list is exactly
the base list and neither happens. -/
theorem claim_C9_citation (doc : List DocBlock) (ov : String)
    (hov : h3AdjPara doc = some ov) :
    (∀ e, firstEm doc = some e → ∀ t, findSection "Taxonomy" doc = some t →
       sectionsOf doc = (baseSections doc).dropLast
          ++ [⟨"taxonomy", "Taxonomy", t ++ e⟩]) ∧
    (∀ e, firstEm doc = some e → findSection "Taxonomy" doc = none →
       sectionsOf doc = baseSections doc ++ [⟨"source", "Source", e⟩]) ∧
    (firstEm doc = none → sectionsOf doc = baseSections doc) := by
  refine ⟨?_, ?_, ?_⟩
  · intro e hem t ht
    rcases hf : findSection "Key Features" doc with _ | f <;>
      rcases hg : findSection "Geological Significance" doc with _ | g <;>
        simp [sectionsOf, baseSections, appendEm, withSec, hov, hem, ht, hf, hg]
  · intro e hem ht
    rcases hf : findSection "Key Features" doc with _ | f <;>
      rcases hg : findSection "Geological Significance" doc with _ | g <;>
        simp [sectionsOf, baseSections, appendEm, withSec, hov, hem, ht, hf, hg]
  · intro hem
    simp [sectionsOf, appendEm, hem]

/-- Witness for C9 at the sample ostracod document, which has a
Taxonomy heading and a trailing citation. -/
theorem claim_C9_citation_witness :
    h3AdjPara sampleDoc = some "<p>Ostracods are small bivalved crustaceans.</p>" ∧
    ((∀ e, firstEm sampleDoc = some e → ∀ t, findSection "Taxonomy" sampleDoc = some t →
        sectionsOf sampleDoc = (baseSections sampleDoc).dropLast
          ++ [⟨"taxonomy", "Taxonomy", t ++ e⟩]) ∧
     (∀ e, firstEm sampleDoc = some e → findSection "Taxonomy" sampleDoc = none →
        sectionsOf sampleDoc = baseSections sampleDoc ++ [⟨"source", "Source", e⟩]) ∧
     (firstEm sampleDoc = none → sectionsOf sampleDoc = baseSections sampleDoc)) :=
  ⟨rfl, claim_C9_citation sampleDoc "<p>Ostracods are small bivalved crustaceans.</p>" rfl⟩
